import Mathlib

/-!
Shallow embedding of `pyBLS/BlsData.py` (the `BlsData` class): the data model,
the table-construction merge loop (`_construct_df`, lines 76-94), the
granularity normalizer (`organize_df`, lines 96-125), the location resolver
(`get_location`, lines 162-180), and the file/constructor plumbing
(`__init__` lines 26-39, `_read_bls_file` lines 60-67, `write_to_bls_file`
lines 69-74).

Python strings are Lean `String`s, numeric cell values are `ℚ` (pandas
numeric), missing cells (`NaN` from an outer merge) are `none`, and every
Python exception is an `Except.error` carrying the exception's name.
External collaborators (the pandas date parsers and the two packaged
reference tables) are modelled explicitly: the reference tables as
association lists passed in as parameters, and the pandas parsers by
functions covering the string shapes the code feeds them.
-/

namespace BLS

/-! ## Small string helpers -/

/-- Numeric value of a list of ASCII digit characters, most significant first. -/
def natOfDigits (cs : List Char) : Nat :=
  cs.foldl (fun n c => n * 10 + (c.toNat - 48)) 0

/-- `s.str.replace(c, '')` on one cell: removes every occurrence of the
character `c` (pandas `str.replace` replaces all occurrences, not only a
leading one). -/
def removeChar (c : Char) (s : String) : String :=
  ⟨s.data.filter (fun x => x != c)⟩

/-- Python slice `s[0:2]`: the first (at most) two characters. -/
def pyTake2 (s : String) : String :=
  ⟨s.data.take 2⟩

/-- Model of `pd.to_numeric` on one string cell, covering plain decimal
literals (`"123"`, `"4.2"`, optional leading minus), the shapes BLS values
take; anything else is a parse failure (`pd.to_numeric` raises). -/
def parseNumCore (cs : List Char) : Option ℚ :=
  let ip := cs.takeWhile (fun c => c != '.')
  match cs.dropWhile (fun c => c != '.') with
  | [] =>
    if ip ≠ [] ∧ ip.all Char.isDigit = true then some ((natOfDigits ip : ℚ)) else none
  | '.' :: fp =>
    if ip ≠ [] ∧ ip.all Char.isDigit = true ∧ fp.all Char.isDigit = true then
      some ((natOfDigits ip : ℚ) + (natOfDigits fp : ℚ) / ((10 : ℚ) ^ fp.length))
    else none
  | _ => none

/-- Model of `pd.to_numeric` on one string cell (with optional sign). -/
def parseNum (s : String) : Option ℚ :=
  match s.data with
  | '-' :: rest => (parseNumCore rest).map (fun q => -q)
  | _ => parseNumCore s.data

/-! ## Date keys

`organize_df` turns the `(year, period)` columns into a single date index:
a `pd.Timestamp` for quarterly/monthly data, and the raw year string for
annual data (the `year` column is just renamed). `DKey` is that index value.
-/

/-- A value of the derived date index: a calendar date (year, month, day)
from `pd.to_datetime`, or the untouched year string (annual branch). -/
inductive DKey where
  | date (y m d : Nat)
  | str (s : String)
deriving DecidableEq

/-- Ordering of index values used by `df.sort_index()`: chronological
(lexicographic year/month/day) on timestamps, lexicographic on strings.
A single frame's index is homogeneous; the cross cases are fixed arbitrarily
to keep the relation total. -/
def dkLE : DKey → DKey → Prop
  | .date y1 m1 d1, .date y2 m2 d2 =>
      y1 < y2 ∨ (y1 = y2 ∧ (m1 < m2 ∨ (m1 = m2 ∧ d1 ≤ d2)))
  | .date _ _ _, .str _ => True
  | .str _, .date _ _ _ => False
  | .str a, .str b => a ≤ b

instance : DecidableRel dkLE := fun a b =>
  match a, b with
  | .date y1 m1 d1, .date y2 m2 d2 =>
      inferInstanceAs (Decidable (y1 < y2 ∨ (y1 = y2 ∧ (m1 < m2 ∨ (m1 = m2 ∧ d1 ≤ d2)))))
  | .date _ _ _, .str _ => inferInstanceAs (Decidable True)
  | .str _, .date _ _ _ => inferInstanceAs (Decidable False)
  | .str a, .str b => inferInstanceAs (Decidable (a ≤ b))

instance : IsTotal DKey dkLE where
  total a b := by
    cases a with
    | date y1 m1 d1 =>
      cases b with
      | date y2 m2 d2 => simp only [dkLE]; omega
      | str s => exact Or.inl trivial
    | str s1 =>
      cases b with
      | date y2 m2 d2 => exact Or.inr trivial
      | str s2 => exact le_total s1 s2

instance : IsTrans DKey dkLE where
  trans a b c h1 h2 := by
    cases a <;> cases b <;> cases c <;> simp only [dkLE] at h1 h2 ⊢
    · omega
    · exact le_trans h1 h2

/-- Model of `pd.to_datetime` (line 106) on the strings the quarterly branch
builds: `"<4-digit year>-Q<quarter>"` parses to the first day of that
quarter. Other inputs fail (raise) in this model; the quarterly theorems
only feed it strings of this shape. -/
def parseQ (cs : List Char) : Option (Nat × Nat) :=
  let ys := cs.takeWhile (fun c => c != '-')
  match cs.dropWhile (fun c => c != '-') with
  | c1 :: c2 :: d :: rest =>
    if c1 = '-' ∧ c2 = 'Q' ∧ rest = [] ∧ ys.length = 4 ∧ ys.all Char.isDigit = true ∧
        (d == '1' || d == '2' || d == '3' || d == '4') = true then
      some (natOfDigits ys, 3 * (d.toNat - 48 - 1) + 1)
    else none
  | _ => none

/-- `pd.to_datetime(s)` for the quarterly branch: quarter `n` of year `y`
becomes the timestamp `y-(3(n-1)+1)-01` (quarter start). -/
def toDatetimeGuess (s : String) : Except String DKey :=
  match parseQ s.data with
  | some (y, m) => .ok (.date y m 1)
  | none => .error "DateParseError"

/-- Model of `strptime`-style parsing with format `%m-%Y` (line 112):
1-2 digit month in `1..12`, `-`, then a 1-4 digit year; day fixed to 1.
Anything else raises. -/
def parseMY (cs : List Char) : Option (Nat × Nat) :=
  let ms := cs.takeWhile (fun c => c != '-')
  match cs.dropWhile (fun c => c != '-') with
  | c1 :: ys =>
    if c1 = '-' ∧ 1 ≤ ms.length ∧ ms.length ≤ 2 ∧ ms.all Char.isDigit = true ∧
        1 ≤ natOfDigits ms ∧ natOfDigits ms ≤ 12 ∧
        1 ≤ ys.length ∧ ys.length ≤ 4 ∧ ys.all Char.isDigit = true then
      some (natOfDigits ys, natOfDigits ms)
    else none
  | _ => none

/-- `pd.to_datetime(s, format='%m-%Y')`. -/
def strptimeMY (s : String) : Except String DKey :=
  match parseMY s.data with
  | some (y, m) => .ok (.date y m 1)
  | none => .error "ValueError"

/-! ## The wide table

The merged frame of `_construct_df` has columns `year`, `period`, then one
numeric column per series. `Row.vals` holds the per-series cells positionally
(aligned with `Table.cols`); `none` is a `NaN` left by the outer merge.
-/

/-- One row of the merged wide frame. -/
structure Row where
  year : String
  period : String
  vals : List (Option ℚ)
deriving DecidableEq

/-- The merged wide frame: `cols` is the list of series-id value columns;
the `year`/`period` key columns are structural. -/
structure Table where
  cols : List String
  rows : List Row
deriving DecidableEq

/-- One row of the organized (date-indexed) frame. -/
structure ORow where
  key : DKey
  vals : List (Option ℚ)
deriving DecidableEq

/-- The organized frame returned by `organize_df`: the date index, the series
value columns, and `metaCols` - whatever is left of the `year`/`period`
bookkeeping columns after the final `drop`. -/
structure OTable where
  cols : List String
  metaCols : List String
  rows : List ORow
deriving DecidableEq

/-- Row order used by `df.sort_index()` (line 120): compare the derived
date keys. -/
def orowLE (a b : ORow) : Prop :=
  dkLE a.key b.key

instance : DecidableRel orowLE := fun a b =>
  inferInstanceAs (Decidable (dkLE a.key b.key))

instance : IsTotal ORow orowLE where
  total a b := IsTotal.total (r := dkLE) a.key b.key

instance : IsTrans ORow orowLE where
  trans _ _ _ h1 h2 := IsTrans.trans (r := dkLE) _ _ _ h1 h2

/-- Row order on the merge keys `(year, period)`: a pandas outer merge
sorts the join keys lexicographically. -/
def rowKeyLE (a b : Row) : Prop :=
  a.year < b.year ∨ (a.year = b.year ∧ a.period ≤ b.period)

instance : DecidableRel rowKeyLE := fun a b =>
  inferInstanceAs (Decidable (a.year < b.year ∨ (a.year = b.year ∧ a.period ≤ b.period)))

/-! ## `organize_df` (lines 96-125) -/

/-- `df.loc[0]['period'][0]`: the first character of the first row's period.
`df.loc[0]` on an empty frame raises `KeyError`; `[0]` on an empty string
raises `IndexError`. The code re-evaluates this before each granularity
branch, after the in-place period edits. -/
def periodHead (rows : List Row) : Except String Char :=
  match rows with
  | [] => .error "KeyError"
  | r :: _ =>
    match r.period.data with
    | [] => .error "IndexError"
    | c :: _ => .ok c

/-- Quarterly branch (lines 103-106): if the first period starts with `Q`,
remove every `'0'` from the period column, build `year + '-' + period`,
and parse it with `pd.to_datetime`. Returns the (possibly edited) rows and
the optional date column. -/
def qStage (rows : List Row) (c0 : Char) : Except String (List Row × Option (List DKey)) :=
  if c0 = 'Q' then
    match (rows.map (fun r => { r with period := removeChar '0' r.period })).mapM
        (fun r => toDatetimeGuess (r.year ++ "-" ++ r.period)) with
    | .ok ds => .ok (rows.map (fun r => { r with period := removeChar '0' r.period }), some ds)
    | .error e => .error e
  else .ok (rows, none)

/-- Monthly branch (lines 109-112): if the (current) first period starts
with `M`, remove every `'M'` from the period column, build
`period + '-' + year`, and parse it with format `%m-%Y`. A date column
built here overwrites one from the quarterly branch. -/
def mStage (rows : List Row) (dc : Option (List DKey)) (c1 : Char) :
    Except String (List Row × Option (List DKey)) :=
  if c1 = 'M' then
    match (rows.map (fun r => { r with period := removeChar 'M' r.period })).mapM
        (fun r => strptimeMY (r.period ++ "-" ++ r.year)) with
    | .ok ds => .ok (rows.map (fun r => { r with period := removeChar 'M' r.period }), some ds)
    | .error e => .error e
  else .ok (rows, dc)

/-- Annual branch plus `set_index('date')` (lines 115-119): if the (current)
first period starts with `A`, the `year` column is renamed to `date`
(`errors='raise'`; `year` is structurally present) and becomes the index as
a plain string. Otherwise `set_index('date')` needs the date column built by
a previous branch - missing, it raises `KeyError`; if the annual rename
would produce a second `date` column the `set_index` fails. Returns the
index keys and the meta columns still present after `set_index`. -/
def aStage (rows : List Row) (dc : Option (List DKey)) (c2 : Char) :
    Except String (List DKey × List String) :=
  if c2 = 'A' then
    match dc with
    | some _ => .error "ValueError"
    | none => .ok (rows.map (fun r => DKey.str r.year), ["period"])
  else
    match dc with
    | some ds => .ok (ds, ["year", "period"])
    | none => .error "KeyError"

/-- `df.drop(columns=targets, errors=...)` on the bookkeeping columns:
with `errors='raise'` a missing target raises `KeyError`; with
`errors='ignore'` (the flag `organize_df` uses, line 123) absence is
tolerated. -/
def dropColumns (cols targets : List String) (raiseOnMissing : Bool) :
    Except String (List String) :=
  if raiseOnMissing = true ∧ ¬ (∀ tc ∈ targets, tc ∈ cols) then .error "KeyError"
  else .ok (cols.filter (fun c => !(targets.contains c)))

/-- `organize_df` (lines 96-125): decide granularity from the first row's
period code, derive the date index, sort by it, and drop the leftover
`period`/`year` columns with `errors='ignore'`. -/
def organize_df (t : Table) : Except String OTable :=
  match periodHead t.rows with
  | .error e => .error e
  | .ok c0 =>
    match qStage t.rows c0 with
    | .error e => .error e
    | .ok (rows1, dc1) =>
      match periodHead rows1 with
      | .error e => .error e
      | .ok c1 =>
        match mStage rows1 dc1 c1 with
        | .error e => .error e
        | .ok (rows2, dc2) =>
          match periodHead rows2 with
          | .error e => .error e
          | .ok c2 =>
            match aStage rows2 dc2 c2 with
            | .error e => .error e
            | .ok (keys, meta) =>
              match dropColumns meta ["period", "year"] false with
              | .error e => .error e
              | .ok meta2 =>
                .ok { cols := t.cols, metaCols := meta2,
                      rows := List.insertionSort orowLE
                        ((keys.zip rows2).map (fun kr => ORow.mk kr.1 kr.2.vals)) }

/-! ## `_construct_df` (lines 76-94) -/

/-- One observation of the raw BLS JSON: `{year, period, value}` (values
arrive as strings). -/
structure Obs where
  year : String
  period : String
  value : String
deriving DecidableEq

/-- One raw series record: `{seriesID, data}`. -/
structure BSeries where
  seriesID : String
  data : List Obs
deriving DecidableEq

/-- Lines 88-91: `pd.DataFrame(bls_series['data'])`, select
`['year','period','value']`, coerce `value` with `pd.to_numeric`.
A series with no observations yields a frame with no columns, so the
column selection raises `KeyError`; an unparseable value raises in
`pd.to_numeric`. -/
def seriesFrame (s : BSeries) : Except String (List (String × String × ℚ)) :=
  if s.data = [] then .error "KeyError"
  else
    s.data.mapM (fun o =>
      match parseNum o.value with
      | some q => .ok (o.year, o.period, q)
      | none => .error "ValueError")

/-- Line 92: `df.merge(right=series_df, on=['year','period'], how='outer')`.
Left rows pick up the matching right values (all matches, per pandas
many-to-many semantics); right rows with keys absent on the left are added
with `NaN` in every existing series column; an outer merge sorts the join
keys lexicographically. -/
def mergeOuter (acc : Table) (sid : String) (srows : List (String × String × ℚ)) : Table :=
  let matched := acc.rows.flatMap (fun r =>
    match srows.filter (fun x => x.1 == r.year && x.2.1 == r.period) with
    | [] => [{ r with vals := r.vals ++ [none] }]
    | ms => ms.map (fun x => { r with vals := r.vals ++ [some x.2.2] }))
  let newRows := (srows.filter
      (fun x => !(acc.rows.any (fun r => r.year == x.1 && r.period == x.2.1)))).map
    (fun x => Row.mk x.1 x.2.1 (List.replicate acc.cols.length none ++ [some x.2.2]))
  { cols := acc.cols ++ [sid],
    rows := List.insertionSort rowKeyLE (matched ++ newRows) }

/-- The `for bls_series in self.raw_data` loop of `_construct_df`
(lines 87-92), threading the accumulator frame. -/
def constructGo : List BSeries → Table → Except String Table
  | [], acc => .ok acc
  | s :: rest, acc =>
    match seriesFrame s with
    | .error e => .error e
    | .ok sf => constructGo rest (mergeOuter acc s.seriesID sf)

/-- The Table Builder merge stage of `_construct_df` (lines 83-92): start
from the empty frame with columns `['year', 'period']` and outer-merge each
series frame into it. -/
def constructMerged (raw : List BSeries) : Except String Table :=
  constructGo raw { cols := [], rows := [] }

/-- `_construct_df` (lines 76-94): the merge loop followed by
`organize_df`. -/
def construct_df (raw : List BSeries) : Except String OTable :=
  match constructMerged raw with
  | .error e => .error e
  | .ok t => organize_df t

/-! ## `get_location` (lines 162-180) -/

/-- `re.match('[EN|LA]', series[0:2])`: the pattern is a character CLASS,
so it matches exactly when the first character of the slice is one of
`E`, `N`, `|`, `L`, `A`. -/
def matchClassENLA (s : String) : Bool :=
  match s.data with
  | c :: _ => c == 'E' || c == 'N' || c == '|' || c == 'L' || c == 'A'
  | [] => false

/-- Group 1 of `re.search('^[A-Z]{3}([\d|U][\d|S]\d\d\d)', series)`
(line 172): three uppercase letters, then a five-character code whose first
two positions also admit `|`/`U` and `|`/`S`. `None.group(1)` on a failed
search raises `AttributeError`. -/
def extractEN (s : String) : Option String :=
  match s.data with
  | a :: b :: c :: d1 :: d2 :: d3 :: d4 :: d5 :: _ =>
    if (a.isUpper && b.isUpper && c.isUpper
        && (d1.isDigit || d1 == '|' || d1 == 'U')
        && (d2.isDigit || d2 == '|' || d2 == 'S')
        && d3.isDigit && d4.isDigit && d5.isDigit) = true then
      some ⟨[d1, d2, d3, d4, d5]⟩
    else none
  | _ => none

/-- Group 1 of `re.search('^[A-Z]{5}(\d\d\d\d\d)', series)` (line 174). -/
def extractLA (s : String) : Option String :=
  match s.data with
  | a :: b :: c :: d :: e :: f1 :: f2 :: f3 :: f4 :: f5 :: _ =>
    if (a.isUpper && b.isUpper && c.isUpper && d.isUpper && e.isUpper
        && f1.isDigit && f2.isDigit && f3.isDigit && f4.isDigit && f5.isDigit) = true then
      some ⟨[f1, f2, f3, f4, f5]⟩
    else none
  | _ => none

/-- Group 1 of `re.search('^[A-Z]*(\d\d\d\d\d\d\d)', series)` (line 177):
the greedy letter run can only stop where a digit begins, so the match is
the first seven characters after the maximal run of uppercase letters,
provided they are all digits. -/
def extractOE (s : String) : Option String :=
  match s.data.dropWhile Char.isUpper with
  | d1 :: d2 :: d3 :: d4 :: d5 :: d6 :: d7 :: _ =>
    if (d1.isDigit && d2.isDigit && d3.isDigit && d4.isDigit
        && d5.isDigit && d6.isDigit && d7.isDigit) = true then
      some ⟨[d1, d2, d3, d4, d5, d6, d7]⟩
    else none
  | _ => none

/-- `df.loc[key][col]` on a reference table: the first row with that index
key, or nothing (pandas raises `KeyError`). -/
def lookupAssoc (tbl : List (String × String)) (k : String) : Option String :=
  (tbl.find? (fun e => e.1 == k)).map (fun e => e.2)

/-- Python dict assignment `d[k] = v`: overwrite in place, else append. -/
def upsertAssoc {α : Type} (l : List (String × α)) (k : String) (v : α) :
    List (String × α) :=
  if l.any (fun e => e.1 == k) then
    l.map (fun e => if e.1 == k then (k, v) else e)
  else l ++ [(k, v)]

/-- The `for series in self.series_id_list` loop of `get_location`
(lines 169-178). `area_code` is a function-local Python variable, so it
persists across iterations and may be read while still unassigned: the
`qcew` lookup on line 175 raises `NameError` when neither the `EN` nor the
`LA` branch ever assigned it. -/
def getLocGo (qcew oes : List (String × String)) :
    List String → Option String → List (String × String) →
    Except String (List (String × String))
  | [], _, acc => .ok acc
  | series :: rest, area_code, acc =>
    let stage1 : Except String (Option String × List (String × String)) :=
      if matchClassENLA (pyTake2 series) = true then
        let acA : Except String (Option String) :=
          if pyTake2 series = "EN" then
            match extractEN series with
            | some a => .ok (some a)
            | none => .error "AttributeError"
          else .ok area_code
        match acA with
        | .error e => .error e
        | .ok ac1 =>
          let acB : Except String (Option String) :=
            if pyTake2 series = "LA" then
              match extractLA series with
              | some a => .ok (some a)
              | none => .error "AttributeError"
            else .ok ac1
          match acB with
          | .error e => .error e
          | .ok ac2 =>
            match ac2 with
            | none => .error "NameError"
            | some a =>
              match lookupAssoc qcew a with
              | none => .error "KeyError"
              | some title => .ok (some a, upsertAssoc acc series title)
      else .ok (area_code, acc)
    match stage1 with
    | .error e => .error e
    | .ok (ac1, acc1) =>
      let stage2 : Except String (Option String × List (String × String)) :=
        if pyTake2 series = "OE" then
          match extractOE series with
          | some a =>
            match lookupAssoc oes a with
            | none => .error "KeyError"
            | some nm => .ok (some a, upsertAssoc acc1 series nm)
          | none => .error "AttributeError"
        else .ok (ac1, acc1)
      match stage2 with
      | .error e => .error e
      | .ok (ac2, acc2) => getLocGo qcew oes rest ac2 acc2

/-- `get_location` (lines 162-180), with the two packaged reference tables
(`qcew_area_codes_df`, `oes_area_codes_df`) passed in explicitly. -/
def get_location (qcew oes : List (String × String)) (series_id_list : List String) :
    Except String (List (String × String)) :=
  getLocGo qcew oes series_id_list none []

/-! ## Constructor and file plumbing (lines 26-39, 60-74) -/

/-- The call `self._read_bls_file(raw_data)` on line 36: `_read_bls_file`
(line 60) is declared with no parameter besides `self`, so passing an
argument raises `TypeError` before the method body (which would open the
hard-coded file `'raw_data3_3.json'`) ever runs. -/
def readBlsFileCall (_rawData : Option (List BSeries)) : Except String (List BSeries) :=
  .error "TypeError"

/-- `write_to_bls_file` (lines 69-74) acting on a filesystem modelled as an
association list from file name to stored JSON: it opens the literal string
`"file_name"` (not the `file_name` argument) and dumps `self.raw_data`
(ignoring the `raw_data` argument). -/
def write_to_bls_file (fs : List (String × List BSeries))
    (self_raw_data _raw_data : List BSeries) (_file_name : String) :
    List (String × List BSeries) :=
  upsertAssoc fs "file_name" self_raw_data

/-- Python truthiness of an optional list argument: `None` and `[]` are
falsy, a non-empty list is truthy. -/
def truthyOpt {α : Type} : Option (List α) → Bool
  | none => false
  | some [] => false
  | some (_ :: _) => true

/-- The attributes set by a successful `BlsData.__init__`. -/
structure BlsState where
  raw_data : List BSeries
  df : OTable
  locations : List (String × String)
deriving DecidableEq

/-- `BlsData.__init__` (lines 26-39). The network fetch
(`_request_bls_data`) is an external collaborator: its response is the
injected `fetched` argument. On the `not raw_data and series_id_list`
branch the fetch result is used; otherwise the code calls
`self._read_bls_file(raw_data)`, which raises `TypeError` (arity mismatch)
before `self.df` is ever built. `get_location` iterating a `None`
series list would also raise `TypeError`. -/
def blsInit (qcew oes : List (String × String)) (fetched : List BSeries)
    (series_id_list : Option (List String)) (raw_data : Option (List BSeries)) :
    Except String BlsState :=
  let rawE : Except String (List BSeries) :=
    if truthyOpt raw_data = false ∧ truthyOpt series_id_list = true then .ok fetched
    else readBlsFileCall raw_data
  match rawE with
  | .error e => .error e
  | .ok raw =>
    match construct_df raw with
    | .error e => .error e
    | .ok df =>
      match series_id_list with
      | none => .error "TypeError"
      | some ids =>
        match get_location qcew oes ids with
        | .error e => .error e
        | .ok locs => .ok ⟨raw, df, locs⟩

/-! ## Specification-side predicates used by the claims -/

/-- The `(year, period)` key column pair of the merged frame. -/
def tableKeys (t : Table) : List (String × String) :=
  t.rows.map (fun r => (r.year, r.period))

/-- A series reported an observation at key `(y, p)`. -/
def reported (s : BSeries) (y p : String) : Prop :=
  ∃ o ∈ s.data, o.year = y ∧ o.period = p

/-- The numeric cell a series contributes at key `(y, p)`: the parsed value
of its (first) observation there, or `none` if it reported none. -/
def seriesCell (s : BSeries) (y p : String) : Option ℚ :=
  match s.data.find? (fun o => o.year == y && o.period == p) with
  | some o => parseNum o.value
  | none => none

/-- Input sanity for one series, as the spec's data model assumes: at least
one observation, all values numeric, at most one observation per
`(year, period)` key. -/
def wfSeries (s : BSeries) : Prop :=
  s.data ≠ [] ∧ (∀ o ∈ s.data, (parseNum o.value).isSome = true) ∧
    (s.data.map (fun o => (o.year, o.period))).Nodup

instance : ∀ s, Decidable (wfSeries s) := fun s =>
  inferInstanceAs (Decidable (s.data ≠ [] ∧ (∀ o ∈ s.data, (parseNum o.value).isSome = true) ∧
    (s.data.map (fun o : Obs => (o.year, o.period))).Nodup))

/-- A well-formed quarterly period code `Q01`..`Q04`. -/
def wfQPeriodB : List Char → Bool
  | ['Q', '0', d] => d == '1' || d == '2' || d == '3' || d == '4'
  | _ => false

/-- A quarterly row as the spec's data model describes: period `Q0d` with
quarter digit `d` in `1..4`, and a four-digit year. -/
def wfQRow (r : Row) : Prop :=
  wfQPeriodB r.period.data = true ∧ r.year.data.length = 4 ∧
    r.year.data.all Char.isDigit = true

/-- A well-formed monthly period code `M01`..`M12`. -/
def wfMPeriodB : List Char → Bool
  | ['M', a, b] => a.isDigit && b.isDigit &&
      decide (1 ≤ natOfDigits [a, b]) && decide (natOfDigits [a, b] ≤ 12)
  | _ => false

/-- A monthly row as the spec's data model describes: period `Mmm` with
month `1..12`, and a four-digit year. -/
def wfMRow (r : Row) : Prop :=
  wfMPeriodB r.period.data = true ∧ r.year.data.length = 4 ∧
    r.year.data.all Char.isDigit = true

instance : ∀ r, Decidable (wfQRow r) := fun r =>
  inferInstanceAs (Decidable (wfQPeriodB r.period.data = true ∧ r.year.data.length = 4 ∧
    r.year.data.all Char.isDigit = true))

instance : ∀ r, Decidable (wfMRow r) := fun r =>
  inferInstanceAs (Decidable (wfMPeriodB r.period.data = true ∧ r.year.data.length = 4 ∧
    r.year.data.all Char.isDigit = true))

/-- The quarter digit embedded in a (well-formed) quarterly period code. -/
def quarterDigit (r : Row) : Nat :=
  match r.period.data with
  | [_, _, d] => d.toNat - 48
  | _ => 0

/-- The date key the spec assigns to a quarterly row: the date anchored to
quarter `d` of the row's year. -/
def expQKey (r : Row) : DKey :=
  .date (natOfDigits r.year.data) (3 * (quarterDigit r - 1) + 1) 1

/-- The date key the spec assigns to a monthly row: month `mm` of the
row's year. -/
def expMKey (r : Row) : DKey :=
  .date (natOfDigits r.year.data) (natOfDigits (r.period.data.drop 1)) 1

/-- The wide-frame rows a series contributes, as produced by a succeeding
`seriesFrame` (values already parsed). -/
def srowsOf (s : BSeries) : List (String × String × ℚ) :=
  s.data.map (fun o => (o.year, o.period, (parseNum o.value).getD 0))

/-- Loop invariant of the `_construct_df` merge loop after the series `ps`
have been merged: one value column per series, pairwise-distinct
`(year, period)` row keys covering exactly the union of the merged series'
observation keys, and each cell holding exactly the value its series
reported there (`none` where it reported nothing). -/
def InvC (ps : List BSeries) (t : Table) : Prop :=
  t.cols = ps.map (fun s => s.seriesID)
  ∧ (tableKeys t).Nodup
  ∧ (∀ y p, (y, p) ∈ tableKeys t ↔ ∃ s ∈ ps, reported s y p)
  ∧ ∀ r ∈ t.rows, r.vals = ps.map (fun s => seriesCell s r.year r.period)

/-! ## Helper lemmas -/

theorem mapM_ok_of_map {α α2 β : Type} {l : List α} {m : α → α2}
    {f : α2 → Except String β} {g : α → β}
    (h : ∀ a ∈ l, f (m a) = .ok (g a)) : (l.map m).mapM f = .ok (l.map g) := by
  induction l with
  | nil => rfl
  | cons a t ih =>
    have ha := h a (List.mem_cons_self a t)
    have ht := ih (fun x hx => h x (List.mem_cons_of_mem a hx))
    simp only [List.map_cons, List.mapM_cons, ha, ht, bind, Except.bind, pure, Except.pure]

theorem mapM_ok_of {α β : Type} {l : List α} {f : α → Except String β} {g : α → β}
    (h : ∀ a ∈ l, f a = .ok (g a)) : l.mapM f = .ok (l.map g) := by
  have := mapM_ok_of_map (m := id) (f := f) (g := g) (l := l) (fun a ha => h a ha)
  simpa using this

theorem takeWhile_app {p : Char → Bool} {ys : List Char} (h : ∀ y ∈ ys, p y = true)
    (c : Char) (hc : p c = false) (zs : List Char) :
    (ys ++ c :: zs).takeWhile p = ys := by
  induction ys with
  | nil => simp [List.takeWhile, hc]
  | cons y t ih =>
    have hy := h y (List.mem_cons_self y t)
    simp [List.takeWhile, hy, ih (fun x hx => h x (List.mem_cons_of_mem y hx))]

theorem dropWhile_app {p : Char → Bool} {ys : List Char} (h : ∀ y ∈ ys, p y = true)
    (c : Char) (hc : p c = false) (zs : List Char) :
    (ys ++ c :: zs).dropWhile p = c :: zs := by
  induction ys with
  | nil => simp [List.dropWhile, hc]
  | cons y t ih =>
    have hy := h y (List.mem_cons_self y t)
    simp [List.dropWhile, hy, ih (fun x hx => h x (List.mem_cons_of_mem y hx))]

theorem digit_bne_of {c x : Char} (h : c.isDigit = true) (hx : x.isDigit = false) :
    (c != x) = true := by
  rcases eq_or_ne c x with rfl | hne
  · rw [h] at hx; exact absurd hx (by simp)
  · simp [hne]

theorem data_append (a b : String) : (a ++ b).data = a.data ++ b.data := by
  cases a; cases b; rfl

/-! ## C5: the empty table -/

/-- C5: for an empty table (no rows) `organize_df` fails: `df.loc[0]` has no
row 0 to read a period code from, so a `KeyError` is raised instead of a
table being returned. -/
theorem c5_empty_table_fails (t : Table) (h : t.rows = []) :
    organize_df t = .error "KeyError" := by
  unfold organize_df periodHead
  rw [h]

/-- Witness for C5 at the concrete empty table. -/
theorem c5_witness : organize_df { cols := ["S"], rows := [] } = .error "KeyError" :=
  c5_empty_table_fails { cols := ["S"], rows := [] } rfl

/-! ## C6: no series supplied -/

/-- C6: with no series records supplied, the Table Builder merge stage of
`_construct_df` returns the empty skeleton frame: no data rows and no series
value columns, only the structural `year`/`period` columns it started
from. -/
theorem c6_no_series_skeleton :
    constructMerged [] = .ok { cols := [], rows := [] } := rfl

/-! ## C8: identifiers matching neither prefix -/

/-- C8 (refuting the claim at the failing input): `"LNS14000000"` begins
with none of `EN`, `LA`, `OE`, yet `get_location` does not skip it:
`re.match('[EN|LA]', ...)` is a character class that matches the leading
`L`, neither inner prefix test assigns `area_code`, and the reference
lookup then raises `NameError` - whatever the reference tables hold. -/
theorem c8_non_matching_prefix_not_skipped (qcew oes : List (String × String)) :
    get_location qcew oes ["LNS14000000"] = .error "NameError" := rfl

/-! ## C9: the write/re-load round trip -/

/-- C9 (refuting the round trip at a concrete input): `write_to_bls_file`
stores `self.raw_data` under the literal name `"file_name"` no matter which
`file_name` argument is passed, and constructing a `BlsData` with
`raw_data` supplied raises `TypeError` (the `self._read_bls_file(raw_data)`
arity mismatch), so no re-loaded table ever exists to compare with the
original. -/
theorem c9_roundtrip_broken :
    write_to_bls_file [] [⟨"S1", [⟨"2020", "Q01", "1"⟩]⟩]
        [⟨"S1", [⟨"2020", "Q01", "1"⟩]⟩] "bls_out.json"
      = [("file_name", [⟨"S1", [⟨"2020", "Q01", "1"⟩]⟩])]
    ∧ blsInit [] [] [] none (some [⟨"S1", [⟨"2020", "Q01", "1"⟩]⟩])
      = .error "TypeError" :=
  ⟨rfl, rfl⟩

/-! ## C10: the offline construction path -/

/-- C10: whenever `raw_data` is supplied (truthy) - or both `raw_data` and
`series_id_list` are absent - `__init__` takes the
`self._read_bls_file(raw_data)` branch and raises `TypeError` before any
table is built, so the offline path never succeeds. -/
theorem c10_offline_path_typeerror (qcew oes : List (String × String))
    (fetched : List BSeries) (series_id_list : Option (List String))
    (raw_data : Option (List BSeries))
    (h : truthyOpt raw_data = true ∨ (raw_data = none ∧ series_id_list = none)) :
    blsInit qcew oes fetched series_id_list raw_data = .error "TypeError" := by
  have hcond : ¬ (truthyOpt raw_data = false ∧ truthyOpt series_id_list = true) := by
    rcases h with h | ⟨h1, h2⟩
    · intro hc
      rw [h] at hc
      exact absurd hc.1 (by simp)
    · subst h1; subst h2
      intro hc
      exact absurd hc.2 (by simp [truthyOpt])
  unfold blsInit
  rw [if_neg hcond]
  rfl

/-! ## C7: unknown area codes fail loudly -/

/-- C7: a series identifier with prefix `EN`, `LA` or `OE` whose extracted
embedded area code is not a key of the corresponding reference table makes
`get_location` raise `KeyError` (the `df.loc[...]` lookup), producing no
label. -/
theorem c7_unknown_code_keyerror (qcew oes : List (String × String)) (s a : String)
    (h : (pyTake2 s = "EN" ∧ extractEN s = some a ∧ lookupAssoc qcew a = none)
       ∨ (pyTake2 s = "LA" ∧ extractLA s = some a ∧ lookupAssoc qcew a = none)
       ∨ (pyTake2 s = "OE" ∧ extractOE s = some a ∧ lookupAssoc oes a = none)) :
    get_location qcew oes [s] = .error "KeyError" := by
  unfold get_location getLocGo
  rcases h with ⟨h1, h2, h3⟩ | ⟨h1, h2, h3⟩ | ⟨h1, h2, h3⟩
  · have hm : matchClassENLA "EN" = true := rfl
    simp [h1, h2, h3, hm]
  · have hm : matchClassENLA "LA" = true := rfl
    simp [h1, h2, h3, hm]
  · have hm : matchClassENLA "OE" = false := rfl
    simp [h1, h2, h3, hm]

/-- Witness for C7: an `EN`-prefixed identifier whose embedded code `04013`
is absent from the (here empty) reference table. -/
theorem c7_witness :
    (pyTake2 "ENU0401310511" = "EN" ∧ extractEN "ENU0401310511" = some "04013" ∧
      lookupAssoc [] "04013" = none) ∧
    get_location [] [] ["ENU0401310511"] = .error "KeyError" :=
  ⟨by decide,
    c7_unknown_code_keyerror [] [] "ENU0401310511" "04013" (Or.inl (by decide))⟩

/-- Witness for C10 at a concrete call with both arguments absent. -/
theorem c10_witness : blsInit [] [] [] none none = .error "TypeError" :=
  c10_offline_path_typeerror [] [] [] none none (Or.inr ⟨rfl, rfl⟩)

/-! ## C4: sorted output, dropped bookkeeping columns -/

theorem aStage_meta {rows : List Row} {dc : Option (List DKey)} {c2 : Char}
    {keys : List DKey} {meta : List String}
    (h : aStage rows dc c2 = .ok (keys, meta)) :
    meta = ["period"] ∨ meta = ["year", "period"] := by
  unfold aStage at h
  split at h
  · cases dc with
    | some ds => exact Except.noConfusion h
    | none =>
      injection h with h2
      exact Or.inl (congrArg Prod.snd h2).symm
  · cases dc with
    | some ds =>
      injection h with h2
      exact Or.inr (congrArg Prod.snd h2).symm
    | none => exact Except.noConfusion h

/-- C4: whenever `organize_df` succeeds, the returned rows are sorted
non-decreasingly by the derived date key, nothing is left of the
`period`/`year` bookkeeping columns, and the series value columns are kept;
moreover the drop runs with `errors='ignore'`, which tolerates an absent
target column on any input (it never fails). -/
theorem c4_sorted_and_dropped :
    (∀ t res, organize_df t = .ok res →
        List.Sorted orowLE res.rows ∧ res.metaCols = [] ∧ res.cols = t.cols)
    ∧ ∀ cols, dropColumns cols ["period", "year"] false =
        .ok (cols.filter (fun c => !(["period", "year"].contains c))) := by
  constructor
  · intro t res h
    unfold organize_df at h
    rcases hc0 : periodHead t.rows with e | c0
    · simp only [hc0] at h; exact Except.noConfusion h
    simp only [hc0] at h
    rcases hq : qStage t.rows c0 with e | ⟨rows1, dc1⟩
    · simp only [hq] at h; exact Except.noConfusion h
    simp only [hq] at h
    rcases hc1 : periodHead rows1 with e | c1
    · simp only [hc1] at h; exact Except.noConfusion h
    simp only [hc1] at h
    rcases hm : mStage rows1 dc1 c1 with e | ⟨rows2, dc2⟩
    · simp only [hm] at h; exact Except.noConfusion h
    simp only [hm] at h
    rcases hc2 : periodHead rows2 with e | c2
    · simp only [hc2] at h; exact Except.noConfusion h
    simp only [hc2] at h
    rcases ha : aStage rows2 dc2 c2 with e | ⟨keys, meta⟩
    · simp only [ha] at h; exact Except.noConfusion h
    simp only [ha] at h
    have hdrop : dropColumns meta ["period", "year"] false = .ok [] := by
      rcases aStage_meta ha with rfl | rfl <;> rfl
    simp only [hdrop] at h
    injection h with h
    subst h
    exact ⟨List.sorted_insertionSort orowLE _, rfl, rfl⟩
  · intro cols
    simp [dropColumns]

/-! ## C2, C3: quarterly and monthly date derivation -/

theorem all_digits {l : List Char} (h : l.all Char.isDigit = true) :
    ∀ c ∈ l, c.isDigit = true :=
  fun c hc => List.all_eq_true.mp h c hc

theorem digit_ne_of {c x : Char} (h : c.isDigit = true) (hx : x.isDigit = false) :
    c ≠ x := by
  intro he
  subst he
  rw [h] at hx
  exact Bool.noConfusion hx

theorem wfQ_data {r : Row} (h : wfQRow r) :
    ∃ d, r.period.data = ['Q', '0', d] ∧ (d = '1' ∨ d = '2' ∨ d = '3' ∨ d = '4') := by
  obtain ⟨hp, -, -⟩ := h
  unfold wfQPeriodB at hp
  split at hp
  · rename_i d heq
    exact ⟨d, heq, by simpa [or_assoc] using hp⟩
  · exact absurd hp (by simp)

theorem qstrip_data {r : Row} (h : wfQRow r) :
    ∃ d, r.period.data = ['Q', '0', d] ∧ (d = '1' ∨ d = '2' ∨ d = '3' ∨ d = '4') ∧
      (removeChar '0' r.period).data = ['Q', d] := by
  obtain ⟨d, hpd, hd⟩ := wfQ_data h
  refine ⟨d, hpd, hd, ?_⟩
  have hd0 : (d != '0') = true := by rcases hd with rfl | rfl | rfl | rfl <;> rfl
  show r.period.data.filter (fun x => x != '0') = ['Q', d]
  rw [hpd]
  have h1 : (('Q' : Char) != '0') = true := rfl
  have h2 : (('0' : Char) != '0') = false := rfl
  simp [List.filter_cons, h1, h2, hd0]

theorem parseQ_eval {ys : List Char} {d : Char} (hlen : ys.length = 4)
    (hdig : ys.all Char.isDigit = true) (hd : d = '1' ∨ d = '2' ∨ d = '3' ∨ d = '4') :
    parseQ (ys ++ '-' :: 'Q' :: d :: []) =
      some (natOfDigits ys, 3 * (d.toNat - 48 - 1) + 1) := by
  have hne : ∀ y ∈ ys, (fun c => c != '-') y = true :=
    fun y hy => digit_bne_of (all_digits hdig y hy) rfl
  unfold parseQ
  rw [takeWhile_app hne '-' rfl, dropWhile_app hne '-' rfl]
  show (if ('-' : Char) = '-' ∧ ('Q' : Char) = 'Q' ∧ ([] : List Char) = [] ∧
      ys.length = 4 ∧ ys.all Char.isDigit = true ∧
      (d == '1' || d == '2' || d == '3' || d == '4') = true then
    some (natOfDigits ys, 3 * (d.toNat - 48 - 1) + 1) else none) =
    some (natOfDigits ys, 3 * (d.toNat - 48 - 1) + 1)
  exact if_pos ⟨rfl, rfl, rfl, hlen, hdig, by rcases hd with rfl | rfl | rfl | rfl <;> rfl⟩

theorem qrow_parse {r : Row} (h : wfQRow r) :
    toDatetimeGuess (r.year ++ "-" ++ removeChar '0' r.period) = .ok (expQKey r) := by
  obtain ⟨d, hpd, hd, hstrip⟩ := qstrip_data h
  obtain ⟨-, hlen, hdig⟩ := h
  have hdata : (r.year ++ "-" ++ removeChar '0' r.period).data
      = r.year.data ++ '-' :: 'Q' :: d :: [] := by
    rw [data_append, data_append, hstrip]
    simp
  unfold toDatetimeGuess
  rw [hdata, parseQ_eval hlen hdig hd]
  unfold expQKey quarterDigit
  rw [hpd]

theorem periodHead_cons (r : Row) (rs : List Row) {c : Char} {cs : List Char}
    (h : r.period.data = c :: cs) : periodHead (r :: rs) = .ok c := by
  show (match r.period.data with
    | [] => Except.error "IndexError"
    | c :: _ => Except.ok c) = Except.ok c
  rw [h]

/-- C2: on a non-empty table of well-formed quarterly rows (period `Q0d`,
quarter `d` in 1..4, four-digit year - the shapes the spec's data model
admits), `organize_df` strips the leading zero (its remove-all-zeros edit
equals that on these codes), concatenates `"<year>-Q<quarter>"`, parses it
to the date anchored at that quarter, and returns the rows (as a
permutation, before sorting) keyed by exactly those quarter-anchor dates. -/
theorem c2_quarterly_dates (t : Table) (hne : t.rows ≠ [])
    (hwf : ∀ r ∈ t.rows, wfQRow r) :
    ∃ res, organize_df t = .ok res ∧
      res.rows.Perm (t.rows.map (fun r => ORow.mk (expQKey r) r.vals)) := by
  obtain ⟨r0, rest, hrows⟩ : ∃ r0 rest, t.rows = r0 :: rest := by
    cases hr : t.rows with
    | nil => exact absurd hr hne
    | cons a l => exact ⟨a, l, rfl⟩
  have hr0 : r0 ∈ t.rows := by rw [hrows]; exact List.mem_cons_self r0 rest
  obtain ⟨d0, hpd0, hd0, hsd0⟩ := qstrip_data (hwf r0 hr0)
  have hc0 : periodHead t.rows = .ok 'Q' := by
    rw [hrows]; exact periodHead_cons r0 rest hpd0
  have hq : qStage t.rows 'Q' = .ok
      (t.rows.map (fun r => { r with period := removeChar '0' r.period }),
       some (t.rows.map expQKey)) := by
    unfold qStage
    rw [if_pos rfl,
      mapM_ok_of_map (m := fun r : Row => { r with period := removeChar '0' r.period })
        (f := fun r : Row => toDatetimeGuess (r.year ++ "-" ++ r.period)) (g := expQKey)
        (fun r hr => qrow_parse (hwf r hr))]
  have hc1 : periodHead (t.rows.map (fun r => { r with period := removeChar '0' r.period }))
      = .ok 'Q' := by
    rw [hrows, List.map_cons]
    exact periodHead_cons _ _ hsd0
  have hm : mStage (t.rows.map (fun r => { r with period := removeChar '0' r.period }))
      (some (t.rows.map expQKey)) 'Q'
      = .ok (t.rows.map (fun r => { r with period := removeChar '0' r.period }),
             some (t.rows.map expQKey)) := by
    unfold mStage
    rw [if_neg (by decide)]
  have ha : aStage (t.rows.map (fun r => { r with period := removeChar '0' r.period }))
      (some (t.rows.map expQKey)) 'Q'
      = .ok (t.rows.map expQKey, ["year", "period"]) := by
    unfold aStage
    rw [if_neg (by decide)]
  have horg : organize_df t = .ok
      ⟨t.cols, [],
        List.insertionSort orowLE
          (((t.rows.map expQKey).zip
              (t.rows.map (fun r => { r with period := removeChar '0' r.period }))).map
            (fun kr => ORow.mk kr.1 kr.2.vals))⟩ := by
    unfold organize_df
    simp only [hc0, hq, hc1, hm, ha]
    rfl
  refine ⟨_, horg, ?_⟩
  show (List.insertionSort orowLE
      (((t.rows.map expQKey).zip
          (t.rows.map (fun r => { r with period := removeChar '0' r.period }))).map
        (fun kr => ORow.mk kr.1 kr.2.vals))).Perm
      (t.rows.map (fun r => ORow.mk (expQKey r) r.vals))
  rw [List.zip_map', List.map_map]
  exact List.perm_insertionSort orowLE _

/-- Witness for C2 at the claim's concrete inputs: `{2020, Q01}` derives
Q1 2020 (timestamp 2020-01-01) and `{2020, Q04}` derives Q4 2020
(timestamp 2020-10-01). -/
theorem c2_witness :
    (([⟨"2020", "Q01", [some 1]⟩, ⟨"2020", "Q04", [some 2]⟩] : List Row) ≠ []) ∧
    (∀ r ∈ ([⟨"2020", "Q01", [some 1]⟩, ⟨"2020", "Q04", [some 2]⟩] : List Row), wfQRow r) ∧
    (∃ res, organize_df ⟨["S"], [⟨"2020", "Q01", [some 1]⟩, ⟨"2020", "Q04", [some 2]⟩]⟩
        = .ok res ∧
      res.rows.Perm [ORow.mk (.date 2020 1 1) [some 1], ORow.mk (.date 2020 10 1) [some 2]]) :=
  ⟨by decide, by decide,
    c2_quarterly_dates ⟨["S"], [⟨"2020", "Q01", [some 1]⟩, ⟨"2020", "Q04", [some 2]⟩]⟩
      (by decide) (by decide)⟩

theorem wfM_data {r : Row} (h : wfMRow r) :
    ∃ a b, r.period.data = ['M', a, b] ∧ a.isDigit = true ∧ b.isDigit = true ∧
      1 ≤ natOfDigits [a, b] ∧ natOfDigits [a, b] ≤ 12 := by
  obtain ⟨hp, -, -⟩ := h
  unfold wfMPeriodB at hp
  split at hp
  · rename_i a b heq
    simp only [Bool.and_eq_true, decide_eq_true_eq] at hp
    exact ⟨a, b, heq, hp.1.1.1, hp.1.1.2, hp.1.2, hp.2⟩
  · exact absurd hp (by simp)

theorem parseMY_eval {a b : Char} {ys : List Char} (ha : a.isDigit = true)
    (hb : b.isDigit = true) (h1 : 1 ≤ natOfDigits [a, b]) (h2 : natOfDigits [a, b] ≤ 12)
    (hylen : ys.length = 4) (hydig : ys.all Char.isDigit = true) :
    parseMY ([a, b] ++ '-' :: ys) = some (natOfDigits ys, natOfDigits [a, b]) := by
  have hne : ∀ y ∈ ([a, b] : List Char), (fun c => c != '-') y = true := by
    intro y hy
    simp only [List.mem_cons, List.not_mem_nil, or_false] at hy
    rcases hy with rfl | rfl
    · exact digit_bne_of ha rfl
    · exact digit_bne_of hb rfl
  unfold parseMY
  rw [takeWhile_app hne '-' rfl, dropWhile_app hne '-' rfl]
  show (if ('-' : Char) = '-' ∧ 1 ≤ ([a, b] : List Char).length ∧
      ([a, b] : List Char).length ≤ 2 ∧ ([a, b] : List Char).all Char.isDigit = true ∧
      1 ≤ natOfDigits [a, b] ∧ natOfDigits [a, b] ≤ 12 ∧
      1 ≤ ys.length ∧ ys.length ≤ 4 ∧ ys.all Char.isDigit = true then
    some (natOfDigits ys, natOfDigits [a, b]) else none) =
    some (natOfDigits ys, natOfDigits [a, b])
  exact if_pos ⟨rfl, by simp, by simp, by simp [ha, hb], h1, h2, by omega, by omega, hydig⟩

theorem mstrip_data {r : Row} (h : wfMRow r) :
    ∃ a b, r.period.data = ['M', a, b] ∧ a.isDigit = true ∧ b.isDigit = true ∧
      1 ≤ natOfDigits [a, b] ∧ natOfDigits [a, b] ≤ 12 ∧
      (removeChar 'M' r.period).data = [a, b] := by
  obtain ⟨a, b, hpd, ha, hb, h1, h2⟩ := wfM_data h
  refine ⟨a, b, hpd, ha, hb, h1, h2, ?_⟩
  show r.period.data.filter (fun x => x != 'M') = [a, b]
  rw [hpd]
  have hM : (('M' : Char) != 'M') = false := rfl
  have hA : (a != 'M') = true := digit_bne_of ha rfl
  have hB : (b != 'M') = true := digit_bne_of hb rfl
  simp [List.filter_cons, hM, hA, hB]

theorem mrow_parse {r : Row} (h : wfMRow r) :
    strptimeMY (removeChar 'M' r.period ++ "-" ++ r.year) = .ok (expMKey r) := by
  obtain ⟨a, b, hpd, ha, hb, h1, h2, hstrip⟩ := mstrip_data h
  obtain ⟨-, hylen, hydig⟩ := h
  have hdata : (removeChar 'M' r.period ++ "-" ++ r.year).data
      = [a, b] ++ '-' :: r.year.data := by
    rw [data_append, data_append, hstrip]
    simp
  unfold strptimeMY
  rw [hdata, parseMY_eval ha hb h1 h2 hylen hydig]
  unfold expMKey
  rw [hpd]
  rfl

/-- C3: on a non-empty table of well-formed monthly rows (period `Mmm`,
month 1..12, four-digit year), `organize_df` strips the `M` marker,
concatenates `"<month>-<year>"`, parses it with the explicit `%m-%Y`
format, and returns the rows (as a permutation, before sorting) keyed by
exactly those month dates. -/
theorem c3_monthly_dates (t : Table) (hne : t.rows ≠ [])
    (hwf : ∀ r ∈ t.rows, wfMRow r) :
    ∃ res, organize_df t = .ok res ∧
      res.rows.Perm (t.rows.map (fun r => ORow.mk (expMKey r) r.vals)) := by
  obtain ⟨r0, rest, hrows⟩ : ∃ r0 rest, t.rows = r0 :: rest := by
    cases hr : t.rows with
    | nil => exact absurd hr hne
    | cons a l => exact ⟨a, l, rfl⟩
  have hr0 : r0 ∈ t.rows := by rw [hrows]; exact List.mem_cons_self r0 rest
  obtain ⟨a0, b0, hpd0, ha0, hb0, h10, h20, hsd0⟩ := mstrip_data (hwf r0 hr0)
  have hc0 : periodHead t.rows = .ok 'M' := by
    rw [hrows]; exact periodHead_cons r0 rest hpd0
  have hqs : qStage t.rows 'M' = .ok (t.rows, none) := by
    unfold qStage
    rw [if_neg (by decide)]
  have hm : mStage t.rows none 'M'
      = .ok (t.rows.map (fun r => { r with period := removeChar 'M' r.period }),
             some (t.rows.map expMKey)) := by
    unfold mStage
    rw [if_pos rfl,
      mapM_ok_of_map (m := fun r : Row => { r with period := removeChar 'M' r.period })
        (f := fun r : Row => strptimeMY (r.period ++ "-" ++ r.year)) (g := expMKey)
        (fun r hr => mrow_parse (hwf r hr))]
  have hc2 : periodHead (t.rows.map (fun r => { r with period := removeChar 'M' r.period }))
      = .ok a0 := by
    rw [hrows, List.map_cons]
    exact periodHead_cons _ _ hsd0
  have ha : aStage (t.rows.map (fun r => { r with period := removeChar 'M' r.period }))
      (some (t.rows.map expMKey)) a0
      = .ok (t.rows.map expMKey, ["year", "period"]) := by
    unfold aStage
    rw [if_neg (digit_ne_of (x := 'A') ha0 rfl)]
  have horg : organize_df t = .ok
      ⟨t.cols, [],
        List.insertionSort orowLE
          (((t.rows.map expMKey).zip
              (t.rows.map (fun r => { r with period := removeChar 'M' r.period }))).map
            (fun kr => ORow.mk kr.1 kr.2.vals))⟩ := by
    unfold organize_df
    simp only [hc0, hqs, hc0, hm, hc2, ha]
    rfl
  refine ⟨_, horg, ?_⟩
  show (List.insertionSort orowLE
      (((t.rows.map expMKey).zip
          (t.rows.map (fun r => { r with period := removeChar 'M' r.period }))).map
        (fun kr => ORow.mk kr.1 kr.2.vals))).Perm
      (t.rows.map (fun r => ORow.mk (expMKey r) r.vals))
  rw [List.zip_map', List.map_map]
  exact List.perm_insertionSort orowLE _

/-- Witness for C3 at the claim's concrete input: `{2021, M03}` derives
March 2021 (timestamp 2021-03-01). -/
theorem c3_witness :
    (([⟨"2021", "M03", [some 5]⟩] : List Row) ≠ []) ∧
    (∀ r ∈ ([⟨"2021", "M03", [some 5]⟩] : List Row), wfMRow r) ∧
    (∃ res, organize_df ⟨["S"], [⟨"2021", "M03", [some 5]⟩]⟩ = .ok res ∧
      res.rows.Perm [ORow.mk (.date 2021 3 1) [some 5]]) :=
  ⟨by decide, by decide,
    c3_monthly_dates ⟨["S"], [⟨"2021", "M03", [some 5]⟩]⟩ (by decide) (by decide)⟩

/-! ## C1: the outer-merge table construction -/

theorem seriesFrame_eq {s : BSeries} (h : wfSeries s) :
    seriesFrame s = .ok (srowsOf s) := by
  obtain ⟨hne, hvals, -⟩ := h
  unfold seriesFrame
  rw [if_neg hne]
  refine mapM_ok_of (fun o ho => ?_)
  obtain ⟨q, hq⟩ := Option.isSome_iff_exists.mp (hvals o ho)
  rw [hq]
  rfl

theorem filter_key_eq_find (l : List (String × String × ℚ)) (y p : String)
    (hnd : (l.map (fun x => (x.1, x.2.1))).Nodup) :
    l.filter (fun x => x.1 == y && x.2.1 == p) =
      (l.find? (fun x => x.1 == y && x.2.1 == p)).toList := by
  induction l with
  | nil => rfl
  | cons a t ih =>
    rw [List.map_cons, List.nodup_cons] at hnd
    cases hpa : (a.1 == y && a.2.1 == p) with
    | false => simp [List.filter_cons, List.find?_cons, hpa, ih hnd.2]
    | true =>
      have hkey : a.1 = y ∧ a.2.1 = p := by simpa using hpa
      have hfilt : t.filter (fun x => x.1 == y && x.2.1 == p) = [] := by
        rw [List.filter_eq_nil_iff]
        intro x hx hpx
        have hxkey : x.1 = y ∧ x.2.1 = p := by simpa using hpx
        refine hnd.1 ?_
        rw [hkey.1, hkey.2, ← hxkey.1, ← hxkey.2]
        exact List.mem_map.mpr ⟨x, hx, rfl⟩
      simp [List.filter_cons, List.find?_cons, hpa, hfilt]

theorem srows_find (s : BSeries) (y p : String)
    (hvals : ∀ o ∈ s.data, (parseNum o.value).isSome = true) :
    ((srowsOf s).find? (fun x => x.1 == y && x.2.1 == p)).map (fun x => x.2.2)
      = seriesCell s y p := by
  unfold srowsOf seriesCell
  revert hvals
  generalize s.data = l
  intro hvals
  induction l with
  | nil => rfl
  | cons o t ih =>
    cases hpo : (o.year == y && o.period == p) with
    | true =>
      obtain ⟨q, hq⟩ := Option.isSome_iff_exists.mp (hvals o (by simp))
      simp [List.find?_cons, hpo, hq]
    | false =>
      simp only [List.map_cons, List.find?_cons]
      simp only [hpo]
      exact ih (fun x hx => hvals x (by simp [hx]))

theorem find?_key_self {l : List (String × String × ℚ)}
    (hnd : (l.map (fun x => (x.1, x.2.1))).Nodup) {x : String × String × ℚ} (hx : x ∈ l) :
    l.find? (fun e => e.1 == x.1 && e.2.1 == x.2.1) = some x := by
  induction l with
  | nil => exact absurd hx (List.not_mem_nil x)
  | cons a t ih =>
    rw [List.map_cons, List.nodup_cons] at hnd
    rcases List.mem_cons.mp hx with rfl | hxt
    · simp [List.find?_cons]
    · cases hpa : (a.1 == x.1 && a.2.1 == x.2.1) with
      | false => simp [List.find?_cons, hpa, ih hnd.2 hxt]
      | true =>
        have hkey : a.1 = x.1 ∧ a.2.1 = x.2.1 := by simpa using hpa
        exact absurd
          (by rw [hkey.1, hkey.2]; exact List.mem_map.mpr ⟨x, hxt, rfl⟩) hnd.1

theorem seriesCell_eq_none {s : BSeries} {y p : String} (h : ¬ reported s y p) :
    seriesCell s y p = none := by
  unfold seriesCell
  rw [List.find?_eq_none.mpr]
  intro o ho hpo
  have : o.year = y ∧ o.period = p := by simpa using hpo
  exact h ⟨o, ho, this⟩

theorem seriesCell_mem {s : BSeries} (hvals : ∀ o ∈ s.data, (parseNum o.value).isSome = true)
    (hnd : ((srowsOf s).map (fun x => (x.1, x.2.1))).Nodup)
    {x : String × String × ℚ} (hx : x ∈ srowsOf s) :
    seriesCell s x.1 x.2.1 = some x.2.2 := by
  rw [← srows_find s x.1 x.2.1 hvals, find?_key_self hnd hx]
  rfl

theorem flatMap_eq_map {α β : Type} {l : List α} {f : α → List β} {g : α → β}
    (h : ∀ a ∈ l, f a = [g a]) : l.flatMap f = l.map g := by
  induction l with
  | nil => rfl
  | cons a t ih =>
    rw [List.flatMap_cons, List.map_cons, h a (by simp),
      ih (fun x hx => h x (by simp [hx]))]
    rfl

theorem srows_keys_nodup {s : BSeries} (h : wfSeries s) :
    ((srowsOf s).map (fun x => (x.1, x.2.1))).Nodup := by
  unfold srowsOf
  rw [List.map_map]
  exact h.2.2

theorem matched_eq (t : Table) (s : BSeries) (hs : wfSeries s) :
    (t.rows.flatMap (fun r =>
      match (srowsOf s).filter (fun x => x.1 == r.year && x.2.1 == r.period) with
      | [] => [{ r with vals := r.vals ++ [none] }]
      | ms => ms.map (fun x => { r with vals := r.vals ++ [some x.2.2] })))
    = t.rows.map (fun r => { r with vals := r.vals ++ [seriesCell s r.year r.period] }) := by
  refine flatMap_eq_map (fun r hr => ?_)
  have hndS := srows_keys_nodup hs
  rw [filter_key_eq_find _ _ _ hndS]
  rcases hf : (srowsOf s).find? (fun x => x.1 == r.year && x.2.1 == r.period) with _ | x
  · have hsf := srows_find s r.year r.period hs.2.1
    rw [hf] at hsf
    simp only [Option.map_none'] at hsf
    simp [Option.toList, hf, ← hsf]
  · have hsf := srows_find s r.year r.period hs.2.1
    rw [hf] at hsf
    simp only [Option.map_some'] at hsf
    simp [Option.toList, hf, ← hsf]

theorem any_key_iff (rows : List Row) (y p : String) :
    (rows.any (fun r => r.year == y && r.period == p)) = true ↔
      (y, p) ∈ rows.map (fun r => (r.year, r.period)) := by
  rw [List.any_eq_true]
  constructor
  · rintro ⟨r, hr, hb⟩
    have : r.year = y ∧ r.period = p := by simpa using hb
    exact List.mem_map.mpr ⟨r, hr, by rw [this.1, this.2]⟩
  · intro hm
    obtain ⟨r, hr, hkey⟩ := List.mem_map.mp hm
    refine ⟨r, hr, ?_⟩
    have h1 : r.year = y := congrArg Prod.fst hkey
    have h2 : r.period = p := congrArg Prod.snd hkey
    simp [h1, h2]

theorem reported_iff (s : BSeries) (y p : String) :
    reported s y p ↔ (y, p) ∈ s.data.map (fun o => (o.year, o.period)) := by
  unfold reported
  constructor
  · rintro ⟨o, ho, h1, h2⟩
    exact List.mem_map.mpr ⟨o, ho, by rw [h1, h2]⟩
  · intro hm
    obtain ⟨o, ho, hkey⟩ := List.mem_map.mp hm
    exact ⟨o, ho, congrArg Prod.fst hkey, congrArg Prod.snd hkey⟩

theorem srows_keys_eq (s : BSeries) :
    (srowsOf s).map (fun x => (x.1, x.2.1)) = s.data.map (fun o => (o.year, o.period)) := by
  unfold srowsOf
  rw [List.map_map]
  rfl

theorem mergeOuter_inv {ps : List BSeries} {t : Table} {s : BSeries}
    (hInv : InvC ps t) (hs : wfSeries s) :
    InvC (ps ++ [s]) (mergeOuter t s.seriesID (srowsOf s)) := by
  obtain ⟨h1, h2, h3, h4⟩ := hInv
  have hndS := srows_keys_nodup hs
  have hperm : (mergeOuter t s.seriesID (srowsOf s)).rows.Perm
      (t.rows.map (fun r => { r with vals := r.vals ++ [seriesCell s r.year r.period] })
        ++ ((srowsOf s).filter
            (fun x => !(t.rows.any (fun r => r.year == x.1 && r.period == x.2.1)))).map
          (fun x => Row.mk x.1 x.2.1 (List.replicate t.cols.length none ++ [some x.2.2]))) := by
    simp only [mergeOuter]
    rw [matched_eq t s hs]
    exact List.perm_insertionSort _ _
  refine ⟨?_, ?_, ?_, ?_⟩
  · show t.cols ++ [s.seriesID] = _
    rw [h1]
    simp
  · unfold tableKeys
    rw [List.Perm.nodup_iff (hperm.map (fun r => (r.year, r.period)))]
    rw [List.map_append, List.map_map, List.map_map]
    refine List.Nodup.append ?_ ?_ ?_
    · exact h2
    · have hsub : ((srowsOf s).filter
          (fun x => !(t.rows.any (fun r => r.year == x.1 && r.period == x.2.1)))).Sublist
          (srowsOf s) := List.filter_sublist _
      exact List.Nodup.sublist (hsub.map (fun x => (x.1, x.2.1))) hndS
    · intro k hk1 hk2
      obtain ⟨x, hxf, hxk⟩ := List.mem_map.mp hk2
      subst hxk
      have hcond := (List.mem_filter.mp hxf).2
      have hany := (any_key_iff t.rows x.1 x.2.1).mpr hk1
      rw [hany] at hcond
      exact Bool.noConfusion hcond
  · intro y p
    unfold tableKeys
    rw [List.Perm.mem_iff (hperm.map (fun r => (r.year, r.period)))]
    rw [List.map_append, List.map_map, List.map_map, List.mem_append]
    constructor
    · rintro (hk | hk)
      · obtain ⟨s', hs', hrep⟩ := (h3 y p).mp hk
        exact ⟨s', List.mem_append_left _ hs', hrep⟩
      · obtain ⟨x, hxf, hxk⟩ := List.mem_map.mp hk
        have hxs : x ∈ srowsOf s := (List.mem_filter.mp hxf).1
        have hky : (y, p) ∈ (srowsOf s).map (fun x => (x.1, x.2.1)) :=
          List.mem_map.mpr ⟨x, hxs, hxk⟩
        rw [srows_keys_eq] at hky
        exact ⟨s, List.mem_append_right _ (List.mem_singleton_self s),
          (reported_iff s y p).mpr hky⟩
    · rintro ⟨s', hs', hrep⟩
      rcases List.mem_append.mp hs' with hps | hsg
      · exact Or.inl ((h3 y p).mpr ⟨s', hps, hrep⟩)
      · have hseq : s' = s := List.mem_singleton.mp hsg
        subst hseq
        by_cases hkt : (y, p) ∈ t.rows.map (fun r => (r.year, r.period))
        · exact Or.inl hkt
        · right
          have hky : (y, p) ∈ (srowsOf s').map (fun x => (x.1, x.2.1)) := by
            rw [srows_keys_eq]
            exact (reported_iff s' y p).mp hrep
          obtain ⟨x, hxs, hxk⟩ := List.mem_map.mp hky
          refine List.mem_map.mpr ⟨x, List.mem_filter.mpr ⟨hxs, ?_⟩, hxk⟩
          have hxy : x.1 = y := congrArg Prod.fst hxk
          have hxp : x.2.1 = p := congrArg Prod.snd hxk
          cases hb : t.rows.any (fun r => r.year == x.1 && r.period == x.2.1) with
          | false => rfl
          | true =>
            have hm := (any_key_iff t.rows x.1 x.2.1).mp hb
            rw [hxy, hxp] at hm
            exact absurd hm hkt
  · intro r hr
    rcases List.mem_append.mp (hperm.mem_iff.mp hr) with hm | hnw
    · obtain ⟨r0, hr0, rfl⟩ := List.mem_map.mp hm
      show r0.vals ++ [seriesCell s r0.year r0.period] = _
      simp [List.map_append, h4 r0 hr0]
    · obtain ⟨x, hxf, rfl⟩ := List.mem_map.mp hnw
      show List.replicate t.cols.length none ++ [some x.2.2] = _
      have hxs : x ∈ srowsOf s := (List.mem_filter.mp hxf).1
      have hcell : seriesCell s x.1 x.2.1 = some x.2.2 := seriesCell_mem hs.2.1 hndS hxs
      have hnone : ∀ s' ∈ ps, seriesCell s' x.1 x.2.1 = none := by
        intro s' hs'
        refine seriesCell_eq_none ?_
        intro hrep
        have hcond := (List.mem_filter.mp hxf).2
        have hk : (x.1, x.2.1) ∈ tableKeys t := (h3 x.1 x.2.1).mpr ⟨s', hs', hrep⟩
        have hany := (any_key_iff t.rows x.1 x.2.1).mpr hk
        rw [hany] at hcond
        exact Bool.noConfusion hcond
      have hlen : t.cols.length = ps.length := by rw [h1, List.length_map]
      have hrep' : ps.map (fun s' => seriesCell s' x.1 x.2.1)
          = List.replicate ps.length none := by
        rw [List.eq_replicate_iff]
        exact ⟨List.length_map _ _, fun b hb => by
          obtain ⟨s', hs', rfl⟩ := List.mem_map.mp hb
          exact hnone s' hs'⟩
      rw [List.map_append, hrep', hlen]
      simp [hcell]

theorem constructGo_inv (l : List BSeries) :
    ∀ ps t, (∀ s ∈ l, wfSeries s) → InvC ps t →
      ∃ t2, constructGo l t = .ok t2 ∧ InvC (ps ++ l) t2 := by
  induction l with
  | nil => exact fun ps t _ hInv => ⟨t, rfl, by simpa using hInv⟩
  | cons s rest ih =>
    intro ps t hwf hInv
    have hs : wfSeries s := hwf s (by simp)
    obtain ⟨t2, hgo, hInv2⟩ := ih (ps ++ [s]) (mergeOuter t s.seriesID (srowsOf s))
      (fun x hx => hwf x (by simp [hx])) (mergeOuter_inv hInv hs)
    refine ⟨t2, ?_, ?_⟩
    · unfold constructGo
      rw [seriesFrame_eq hs]
      exact hgo
    · rw [show ps ++ s :: rest = (ps ++ [s]) ++ rest by simp]
      exact hInv2

/-- C1: under the spec's data-model invariants (each series non-empty with
numeric values and at most one observation per `(year, period)` key, and
pairwise-distinct series identifiers), the Table Builder merge loop yields a
frame with one value column per series identifier, pairwise-distinct row
keys covering exactly the union of all series' observation keys, and each
row carrying per series exactly the value that series reported at the row's
key - `none` (an empty cell) where the series reported nothing. -/
theorem c1_merged_table (raw : List BSeries)
    (hwf : ∀ s ∈ raw, wfSeries s)
    (_hids : (raw.map (fun s => s.seriesID)).Nodup) :
    ∃ t, constructMerged raw = .ok t ∧
      t.cols = raw.map (fun s => s.seriesID) ∧
      (tableKeys t).Nodup ∧
      (∀ y p, (y, p) ∈ tableKeys t ↔ ∃ s ∈ raw, reported s y p) ∧
      (∀ r ∈ t.rows, r.vals = raw.map (fun s => seriesCell s r.year r.period)) ∧
      (∀ s ∈ raw, ∀ y p, ¬ reported s y p → seriesCell s y p = none) := by
  have hInv0 : InvC [] { cols := [], rows := [] } :=
    ⟨rfl, List.nodup_nil, fun y p => by simp [tableKeys], by simp⟩
  obtain ⟨t, hgo, hInv⟩ := constructGo_inv raw [] { cols := [], rows := [] } hwf hInv0
  rw [List.nil_append] at hInv
  obtain ⟨h1, h2, h3, h4⟩ := hInv
  exact ⟨t, hgo, h1, h2, h3, h4, fun s _ y p h => seriesCell_eq_none h⟩

/-- Witness for C1 at two concrete series with overlapping and
non-overlapping keys: `A1` reports Q01 and Q02 of 2020, `B2` reports Q02
and Q03; the merged frame has the three distinct keys and empty cells where
a series did not report. -/
theorem c1_witness :
    (∀ s ∈ [BSeries.mk "A1" [⟨"2020", "Q01", "1"⟩, ⟨"2020", "Q02", "2"⟩],
            BSeries.mk "B2" [⟨"2020", "Q02", "3"⟩, ⟨"2020", "Q03", "4.5"⟩]], wfSeries s) ∧
    (([BSeries.mk "A1" [⟨"2020", "Q01", "1"⟩, ⟨"2020", "Q02", "2"⟩],
       BSeries.mk "B2" [⟨"2020", "Q02", "3"⟩, ⟨"2020", "Q03", "4.5"⟩]].map
        (fun s => s.seriesID)).Nodup) ∧
    (∃ t, constructMerged
        [BSeries.mk "A1" [⟨"2020", "Q01", "1"⟩, ⟨"2020", "Q02", "2"⟩],
         BSeries.mk "B2" [⟨"2020", "Q02", "3"⟩, ⟨"2020", "Q03", "4.5"⟩]] = .ok t ∧
      t.cols = [BSeries.mk "A1" [⟨"2020", "Q01", "1"⟩, ⟨"2020", "Q02", "2"⟩],
                BSeries.mk "B2" [⟨"2020", "Q02", "3"⟩, ⟨"2020", "Q03", "4.5"⟩]].map
        (fun s => s.seriesID) ∧
      (tableKeys t).Nodup ∧
      (∀ y p, (y, p) ∈ tableKeys t ↔
        ∃ s ∈ [BSeries.mk "A1" [⟨"2020", "Q01", "1"⟩, ⟨"2020", "Q02", "2"⟩],
               BSeries.mk "B2" [⟨"2020", "Q02", "3"⟩, ⟨"2020", "Q03", "4.5"⟩]],
          reported s y p) ∧
      (∀ r ∈ t.rows, r.vals =
        [BSeries.mk "A1" [⟨"2020", "Q01", "1"⟩, ⟨"2020", "Q02", "2"⟩],
         BSeries.mk "B2" [⟨"2020", "Q02", "3"⟩, ⟨"2020", "Q03", "4.5"⟩]].map
          (fun s => seriesCell s r.year r.period)) ∧
      (∀ s ∈ [BSeries.mk "A1" [⟨"2020", "Q01", "1"⟩, ⟨"2020", "Q02", "2"⟩],
              BSeries.mk "B2" [⟨"2020", "Q02", "3"⟩, ⟨"2020", "Q03", "4.5"⟩]],
        ∀ y p, ¬ reported s y p → seriesCell s y p = none)) :=
  ⟨by decide, by decide,
    c1_merged_table
      [BSeries.mk "A1" [⟨"2020", "Q01", "1"⟩, ⟨"2020", "Q02", "2"⟩],
       BSeries.mk "B2" [⟨"2020", "Q02", "3"⟩, ⟨"2020", "Q03", "4.5"⟩]]
      (by decide) (by decide)⟩

/-- Witness for C4 at a concrete two-row monthly table given out of order. -/
theorem c4_witness :
    organize_df ⟨["S"], [⟨"2021", "M03", [some 1]⟩, ⟨"2021", "M01", [some 2]⟩]⟩
      = .ok ⟨["S"], [], [⟨.date 2021 1 1, [some 2]⟩, ⟨.date 2021 3 1, [some 1]⟩]⟩
    ∧ (List.Sorted orowLE [ORow.mk (.date 2021 1 1) [some 2], ORow.mk (.date 2021 3 1) [some 1]]
        ∧ ([] : List String) = [] ∧ (["S"] : List String) = ["S"]) := by
  have h : organize_df ⟨["S"], [⟨"2021", "M03", [some 1]⟩, ⟨"2021", "M01", [some 2]⟩]⟩
      = .ok ⟨["S"], [], [⟨.date 2021 1 1, [some 2]⟩, ⟨.date 2021 3 1, [some 1]⟩]⟩ := by
    rfl
  exact ⟨h, c4_sorted_and_dropped.1 _ _ h⟩

end BLS
